import Mathlib

/-!
Verification of the asset selection, re-encoding decision, and size-gated
replacement core of the `vite-plugin-image-compress` plugin
(`src/plugins/vite-plugin-image-compress.ts`).

The plugin iterates over the emitted bundle, filters assets by an
include/exclude path pattern, classifies them by lowercased file extension,
re-encodes raster images through the external `sharp` codec when a non-empty
per-kind options record is configured, and replaces the asset content only
when the encoded candidate is strictly smaller.  Every filtered asset with
recognized content receives exactly one entry in the `processedFiles` ledger.
-/

set_option autoImplicit false

namespace ImageCompress

/-- A per-format options record passed to the codec.  In the plugin these are
opaque key/value objects (quality, compressionLevel, ...); the only structural
fact the core inspects is `Object.keys(record).length > 0`, so entries are
modelled as key/number pairs. -/
abbrev OptsRecord := List (String × Nat)

/-- The raster image kinds routed through the external codec
(`.jpeg()`, `.png()`, `.webp()`, `.gif()`, `.avif()`). -/
inductive RasterKind where
  | jpeg
  | png
  | webp
  | gif
  | avif
deriving DecidableEq, Repr

/-- Result of invoking the external codec: either the compressed bytes
(`toBuffer()` resolved) or a thrown failure (`toBuffer()` rejected, or any
other exception inside the per-asset `try` block). -/
inductive EncodeResult where
  | ok (b : List Nat)
  | err
deriving DecidableEq, Repr

/-- The external codec as a black box: given the raster kind, the
format-specific options record and the source bytes it either produces
candidate bytes or throws. -/
abbrev Encoder := RasterKind → OptsRecord → List Nat → EncodeResult

/-- `interface SharpCompressOptions`: one optional options record per raster
kind.  `none` models an absent key. -/
structure SharpCompressOptions where
  jpeg : Option OptsRecord
  png : Option OptsRecord
  webp : Option OptsRecord
  gif : Option OptsRecord
  avif : Option OptsRecord
deriving DecidableEq, Repr

/-- A path pattern, used only through its single capability
"does this path match?" (`createFilter` wraps regexes and globs into exactly
this predicate shape). -/
abbrev PathPattern := String → Bool

/-- `interface ImageCompressOptions` as supplied by the caller: every field
optional (`none` = key absent from the user object). -/
structure UserOptions where
  includePat : Option PathPattern := none
  excludePat : Option PathPattern := none
  sharpOptions : Option SharpCompressOptions := none
  log : Option Bool := none

/-- The plugin options after merging defaults and caller overrides.
`sharpOptions` is always an object after the merge, hence total here. -/
structure MergedOptions where
  includePat : Option PathPattern
  excludePat : Option PathPattern
  sharpOpts : SharpCompressOptions
  log : Bool

/-- Object-spread semantics for one key: the later object's value wins when
the key is present, otherwise the earlier object's value is kept. -/
def overrideKey {α : Type} (user : Option α) (base : Option α) : Option α :=
  match user with
  | some v => some v
  | none => base

/-- JS `c.toLowerCase()` restricted to ASCII, as applied to path characters. -/
def lowerChar (c : Char) : Char :=
  if 'A' ≤ c ∧ c ≤ 'Z' then Char.ofNat (c.toNat + 32) else c

/-- JS `s.toLowerCase()` on a path string. -/
def toLowerStr (s : String) : String :=
  ⟨s.data.map lowerChar⟩

/-- Suffix test on strings (the `$`-anchored regex match used by the default
include pattern and the extension dispatch). -/
def endsWithStr (s suffixStr : String) : Bool :=
  List.isSuffixOf suffixStr.data s.data

/-- The default include pattern `/\.(png|jpe?g|gif|svg|webp|avif)$/i`. -/
def defaultIncludePat : PathPattern := fun p =>
  let l := toLowerStr p
  [".png", ".jpg", ".jpeg", ".gif", ".svg", ".webp", ".avif"].any
    (fun e => endsWithStr l e)

/-- The built-in `defaultOptions.sharpOptions` record. -/
def defaultSharpOptions : SharpCompressOptions :=
  { jpeg := some [("quality", 75)]
    png := some [("quality", 75), ("compressionLevel", 6)]
    webp := some [("quality", 75)]
    gif := some []
    avif := some [("quality", 50)] }

/-- Per-kind merge of the sharp options:
`{ ...defaultOptions.sharpOptions, ...(userOptions.sharpOptions || {}) }`. -/
def mergeSharp (base : SharpCompressOptions) (user : SharpCompressOptions) :
    SharpCompressOptions :=
  { jpeg := overrideKey user.jpeg base.jpeg
    png := overrideKey user.png base.png
    webp := overrideKey user.webp base.webp
    gif := overrideKey user.gif base.gif
    avif := overrideKey user.avif base.avif }

/-- The empty sharp-options object used when the caller supplied none
(`userOptions.sharpOptions || {}`). -/
def emptySharpOptions : SharpCompressOptions :=
  { jpeg := none, png := none, webp := none, gif := none, avif := none }

/-- The full options merge performed at plugin construction:
`{ ...defaultOptions, ...userOptions, sharpOptions: {...} }` with the default
include pattern, no default exclude, per-kind sharp merge, and `log: true`. -/
def mergeOptions (user : UserOptions) : MergedOptions :=
  { includePat := overrideKey user.includePat (some defaultIncludePat)
    excludePat := overrideKey user.excludePat none
    sharpOpts := mergeSharp defaultSharpOptions
      (match user.sharpOptions with
       | some so => so
       | none => emptySharpOptions)
    log := match user.log with
      | some b => b
      | none => true }

/-- `createFilter(include, exclude)` from `@rollup/pluginutils`, reduced to
the capability the plugin uses: a path is accepted iff it is not excluded and
it matches the include pattern (a missing pattern imposes no constraint). -/
def createFilter (inc exc : Option PathPattern) (id : String) : Bool :=
  (match exc with
   | some e => !(e id)
   | none => true) &&
  (match inc with
   | some i => i id
   | none => true)

/-- Node `path.extname` (posix): the basename after the last `/`. -/
def basenameChars (cs : List Char) : List Char :=
  (cs.reverse.takeWhile (fun c => c ≠ '/')).reverse

/-- Node `path.extname` (posix): substring from the last `.` of the basename
to the end; empty when there is no dot, when the dot is the basename's first
character, or when the basename is `..`. -/
def extnameOf (p : String) : String :=
  let base := basenameChars p.data
  let revAfter := base.reverse.takeWhile (fun c => c ≠ '.')
  if revAfter.length = base.length then ""
  else
    let dotIdx := base.length - revAfter.length - 1
    if dotIdx = 0 then ""
    else if base = ['.', '.'] then ""
    else ⟨'.' :: revAfter.reverse⟩

/-- `path.extname(fileName).toLowerCase()` as computed at line 126. -/
def extLower (fileName : String) : String :=
  toLowerStr (extnameOf fileName)

/-- Whether a bundle entry is a chunk or an emitted asset
(`assetInfo.type`). -/
inductive ItemType where
  | chunk
  | asset
deriving DecidableEq, Repr

/-- The in-memory content of a bundle entry: a JS string, a `Uint8Array`
byte buffer, or some other runtime value (the defensive `else` branch at
lines 120-123). -/
inductive Source where
  | str (s : String)
  | bytes (b : List Nat)
  | other
deriving DecidableEq, Repr

/-- One entry of the bundle object handed to `generateBundle`. -/
structure BundleItem where
  itype : ItemType
  source : Source
deriving DecidableEq, Repr

/-- One `processedFiles` ledger record:
`{ originalSize, compressedSize }`. -/
structure LedgerEntry where
  originalSize : Nat
  compressedSize : Nat
deriving DecidableEq, Repr

/-- UTF-8 encoding of one Unicode scalar value, as performed by
`Buffer.from(source, 'utf-8')` on each character. -/
def utf8EncodeCharB (c : Char) : List Nat :=
  let v := c.toNat
  if v < 128 then [v]
  else if v < 2048 then [192 + v / 64, 128 + v % 64]
  else if v < 65536 then [224 + v / 4096, 128 + v / 64 % 64, 128 + v % 64]
  else [240 + v / 262144, 128 + v / 4096 % 64, 128 + v / 64 % 64, 128 + v % 64]

/-- The byte content of `Buffer.from(s, 'utf-8')`. -/
def utf8Bytes (s : String) : List Nat :=
  s.data.flatMap utf8EncodeCharB

/-- Lines 113-123: convert the asset source to a byte buffer, remembering
whether it arrived as a string; `none` for unrecognized source types. -/
def sourceToBuffer : Source → Option (List Nat × Bool)
  | Source.str s => some (utf8Bytes s, true)
  | Source.bytes b => some (b, false)
  | Source.other => none

/-- Outcome of the `switch (ext)` block (lines 152-193) together with the
codec call it may perform. -/
inductive SwitchOutcome where
  | defaultCase
  | noEncode
  | encoded (b : List Nat)
  | threw
deriving DecidableEq, Repr

/-- One raster case of the switch: invoke the codec only when the per-kind
options record is present and has at least one key. -/
def tryEncode (enc : Encoder) (k : RasterKind) (o : Option OptsRecord)
    (buf : List Nat) : SwitchOutcome :=
  match o with
  | some r =>
      if r.length > 0 then
        match enc k r buf with
        | EncodeResult.ok b => SwitchOutcome.encoded b
        | EncodeResult.err => SwitchOutcome.threw
      else SwitchOutcome.noEncode
  | none => SwitchOutcome.noEncode

/-- The `switch (ext)` dispatch over the lowercased extension. -/
def runSwitch (so : SharpCompressOptions) (enc : Encoder) (ext : String)
    (buf : List Nat) : SwitchOutcome :=
  if ext = ".jpg" ∨ ext = ".jpeg" then tryEncode enc RasterKind.jpeg so.jpeg buf
  else if ext = ".png" then tryEncode enc RasterKind.png so.png buf
  else if ext = ".webp" then tryEncode enc RasterKind.webp so.webp buf
  else if ext = ".gif" then tryEncode enc RasterKind.gif so.gif buf
  else if ext = ".avif" then tryEncode enc RasterKind.avif so.avif buf
  else SwitchOutcome.defaultCase

/-- Result of processing one bundle entry: the ledger write (if any), the
asset's content afterwards, and whether the codec was invoked, a warning was
emitted, or an error was caught. -/
structure StepResult where
  entry : Option LedgerEntry
  newSource : Source
  encoderCalled : Bool
  warned : Bool
  errored : Bool
deriving DecidableEq, Repr

/-- The body of the async `task` closure (lines 145-224): run the switch,
then the size gate, catching any thrown codec failure. -/
def runTask (so : SharpCompressOptions) (enc : Encoder) (src : Source)
    (buf : List Nat) (ext : String) : StepResult :=
  let originalSize := buf.length
  match runSwitch so enc ext buf with
  | SwitchOutcome.defaultCase =>
      { entry := some ⟨originalSize, originalSize⟩, newSource := src
        encoderCalled := false, warned := false, errored := false }
  | SwitchOutcome.noEncode =>
      { entry := some ⟨originalSize, originalSize⟩, newSource := src
        encoderCalled := false, warned := false, errored := false }
  | SwitchOutcome.threw =>
      { entry := some ⟨originalSize, originalSize⟩, newSource := src
        encoderCalled := true, warned := false, errored := true }
  | SwitchOutcome.encoded b =>
      if b.length < originalSize then
        { entry := some ⟨originalSize, b.length⟩, newSource := Source.bytes b
          encoderCalled := true, warned := false, errored := false }
      else
        { entry := some ⟨originalSize, originalSize⟩, newSource := src
          encoderCalled := true, warned := false, errored := false }

/-- Processing of one bundle entry by `generateBundle` (lines 108-227):
type/filter check, source conversion, SVG short-circuit, non-SVG string
short-circuit, then the per-asset task. -/
def processAsset (opts : MergedOptions) (enc : Encoder) (fileName : String)
    (item : BundleItem) : StepResult :=
  if item.itype ≠ ItemType.asset ∨
      createFilter opts.includePat opts.excludePat fileName = false then
    { entry := none, newSource := item.source
      encoderCalled := false, warned := false, errored := false }
  else
    match sourceToBuffer item.source with
    | none =>
        { entry := none, newSource := item.source
          encoderCalled := false, warned := true, errored := false }
    | some (sourceBuffer, sourceIsString) =>
        let originalSize := sourceBuffer.length
        let ext := extLower fileName
        if ext = ".svg" then
          { entry := some ⟨originalSize, originalSize⟩, newSource := item.source
            encoderCalled := false, warned := false, errored := false }
        else if sourceIsString then
          { entry := some ⟨originalSize, originalSize⟩, newSource := item.source
            encoderCalled := false, warned := true, errored := false }
        else
          runTask opts.sharpOpts enc item.source sourceBuffer ext

/-- The whole `generateBundle` hook over a batch: the ledger (in bundle
order) and the bundle contents after all per-asset tasks completed.  Tasks
write disjoint ledger keys, so the concurrent join is observationally this
per-asset fold. -/
def generateBundle (opts : MergedOptions) (enc : Encoder) :
    List (String × BundleItem) →
    List (String × LedgerEntry) × List (String × BundleItem)
  | [] => ([], [])
  | (fileName, item) :: rest =>
      let r := processAsset opts enc fileName item
      let tail := generateBundle opts enc rest
      ((match r.entry with
        | some e => (fileName, e) :: tail.1
        | none => tail.1),
       (fileName, { item with source := r.newSource }) :: tail.2)

/-- The status label computed per row in `closeBundle` (lines 250-261). -/
inductive ReportStatus where
  | skippedSvg
  | compressedOk
  | unchanged
  | errorStatus
deriving DecidableEq, Repr

/-- `closeBundle`'s per-row status: SVG, then the sign of
`originalSize - compressedSize` (JS subtraction, hence over `Int`). -/
def statusOf (fileName : String) (e : LedgerEntry) : ReportStatus :=
  let sizeChange : Int := (e.originalSize : Int) - (e.compressedSize : Int)
  if extLower fileName = ".svg" then ReportStatus.skippedSvg
  else if sizeChange > 0 then ReportStatus.compressedOk
  else if sizeChange = 0 then ReportStatus.unchanged
  else ReportStatus.errorStatus

/-- A bundle entry passing the candidate test of lines 108-111:
of kind `asset` and accepted by the filter. -/
def passesFilter (opts : MergedOptions) (p : String × BundleItem) : Bool :=
  decide (p.2.itype = ItemType.asset) &&
    createFilter opts.includePat opts.excludePat p.1

/-- An encoder that returns the input bytes unchanged. -/
def idEncoder : Encoder := fun _ _ b => EncodeResult.ok b

/-- An encoder that always returns a fixed output buffer. -/
def constEncoder (out : List Nat) : Encoder := fun _ _ _ => EncodeResult.ok out

/-- An encoder whose `toBuffer()` always rejects. -/
def errEncoder : Encoder := fun _ _ _ => EncodeResult.err

lemma processAsset_of_skip (opts : MergedOptions) (enc : Encoder)
    (fileName : String) (item : BundleItem)
    (h : passesFilter opts (fileName, item) = false) :
    processAsset opts enc fileName item =
      { entry := none, newSource := item.source
        encoderCalled := false, warned := false, errored := false } := by
  have h' : item.itype ≠ ItemType.asset ∨
      createFilter opts.includePat opts.excludePat fileName = false := by
    simp only [passesFilter, Bool.and_eq_false_iff, decide_eq_false_iff_not] at h
    rcases h with h | h
    · exact Or.inl h
    · exact Or.inr h
  unfold processAsset
  rw [if_pos h']

lemma processAsset_of_other (opts : MergedOptions) (enc : Encoder)
    (fileName : String) (item : BundleItem)
    (h : passesFilter opts (fileName, item) = true)
    (hs : item.source = Source.other) :
    processAsset opts enc fileName item =
      { entry := none, newSource := item.source
        encoderCalled := false, warned := true, errored := false } := by
  simp only [passesFilter, Bool.and_eq_true, decide_eq_true_eq] at h
  unfold processAsset
  rw [if_neg (by simp [h.1, h.2]), hs]
  rfl

lemma processAsset_of_svg (opts : MergedOptions) (enc : Encoder)
    (fileName : String) (item : BundleItem) (buf : List Nat) (isStr : Bool)
    (h : passesFilter opts (fileName, item) = true)
    (hs : sourceToBuffer item.source = some (buf, isStr))
    (he : extLower fileName = ".svg") :
    processAsset opts enc fileName item =
      { entry := some ⟨buf.length, buf.length⟩, newSource := item.source
        encoderCalled := false, warned := false, errored := false } := by
  simp only [passesFilter, Bool.and_eq_true, decide_eq_true_eq] at h
  unfold processAsset
  rw [if_neg (by simp [h.1, h.2]), hs]
  simp [he]

lemma processAsset_of_str (opts : MergedOptions) (enc : Encoder)
    (fileName : String) (item : BundleItem) (s : String)
    (h : passesFilter opts (fileName, item) = true)
    (hs : item.source = Source.str s)
    (he : extLower fileName ≠ ".svg") :
    processAsset opts enc fileName item =
      { entry := some ⟨(utf8Bytes s).length, (utf8Bytes s).length⟩
        newSource := item.source
        encoderCalled := false, warned := true, errored := false } := by
  simp only [passesFilter, Bool.and_eq_true, decide_eq_true_eq] at h
  unfold processAsset
  rw [if_neg (by simp [h.1, h.2]), hs]
  simp [sourceToBuffer, he]

lemma processAsset_of_bytes (opts : MergedOptions) (enc : Encoder)
    (fileName : String) (item : BundleItem) (buf : List Nat)
    (h : passesFilter opts (fileName, item) = true)
    (hs : item.source = Source.bytes buf)
    (he : extLower fileName ≠ ".svg") :
    processAsset opts enc fileName item =
      runTask opts.sharpOpts enc (Source.bytes buf) buf (extLower fileName) := by
  simp only [passesFilter, Bool.and_eq_true, decide_eq_true_eq] at h
  unfold processAsset
  rw [if_neg (by simp [h.1, h.2]), hs]
  simp [sourceToBuffer, he]

lemma runTask_entry_isSome (so : SharpCompressOptions) (enc : Encoder)
    (src : Source) (buf : List Nat) (ext : String) :
    (runTask so enc src buf ext).entry.isSome = true := by
  unfold runTask
  cases runSwitch so enc ext buf with
  | encoded b =>
      by_cases hb : b.length < buf.length <;> simp [hb]
  | defaultCase => rfl
  | noEncode => rfl
  | threw => rfl

lemma processAsset_entry_isSome (opts : MergedOptions) (enc : Encoder)
    (fileName : String) (item : BundleItem)
    (h : passesFilter opts (fileName, item) = true)
    (hs : item.source ≠ Source.other) :
    (processAsset opts enc fileName item).entry.isSome = true := by
  cases hsrc : item.source with
  | other => exact absurd hsrc hs
  | str s =>
      by_cases he : extLower fileName = ".svg"
      · rw [processAsset_of_svg opts enc fileName item (utf8Bytes s) true h
          (by rw [hsrc]; rfl) he]
        rfl
      · rw [processAsset_of_str opts enc fileName item s h hsrc he]
        rfl
  | bytes b =>
      by_cases he : extLower fileName = ".svg"
      · rw [processAsset_of_svg opts enc fileName item b false h
          (by rw [hsrc]; rfl) he]
        rfl
      · rw [processAsset_of_bytes opts enc fileName item b h hsrc he]
        exact runTask_entry_isSome _ _ _ _ _

lemma passesFilter_eq_true (opts : MergedOptions) (fileName : String)
    (item : BundleItem) (h1 : item.itype = ItemType.asset)
    (h2 : createFilter opts.includePat opts.excludePat fileName = true) :
    passesFilter opts (fileName, item) = true := by
  simp [passesFilter, h1, h2]

lemma processAsset_entry_none (opts : MergedOptions) (enc : Encoder)
    (fileName : String) (item : BundleItem)
    (h : passesFilter opts (fileName, item) = false ∨
         item.source = Source.other) :
    (processAsset opts enc fileName item).entry = none := by
  rcases h with h | h
  · rw [processAsset_of_skip opts enc fileName item h]
  · by_cases hp : passesFilter opts (fileName, item) = true
    · rw [processAsset_of_other opts enc fileName item hp h]
    · rw [processAsset_of_skip opts enc fileName item
        (Bool.eq_false_iff.mpr hp)]

/-- Claim C4: for every filtered asset whose path suffix classifies as svg,
the encoder is never invoked, the asset's content is unchanged, and the
ledger records originalSize equal to finalSize. -/
theorem svg_never_encoded (opts : MergedOptions) (enc : Encoder)
    (fileName : String) (item : BundleItem) (buf : List Nat) (isStr : Bool)
    (h1 : item.itype = ItemType.asset)
    (h2 : createFilter opts.includePat opts.excludePat fileName = true)
    (hs : sourceToBuffer item.source = some (buf, isStr))
    (he : extLower fileName = ".svg") :
    processAsset opts enc fileName item =
      { entry := some ⟨buf.length, buf.length⟩, newSource := item.source
        encoderCalled := false, warned := false, errored := false } :=
  processAsset_of_svg opts enc fileName item buf isStr
    (passesFilter_eq_true opts fileName item h1 h2) hs he

/-- Witness for C4 at the concrete asset `c.svg` with textual SVG content. -/
theorem svg_never_encoded_witness :
    processAsset (mergeOptions {}) idEncoder "c.svg"
      ⟨ItemType.asset, Source.str "<svg></svg>"⟩ =
      { entry := some ⟨11, 11⟩, newSource := Source.str "<svg></svg>"
        encoderCalled := false, warned := false, errored := false } := by
  rw [svg_never_encoded (mergeOptions {}) idEncoder "c.svg"
    ⟨ItemType.asset, Source.str "<svg></svg>"⟩ (utf8Bytes "<svg></svg>") true
    rfl (by decide) rfl (by decide)]
  decide

/-- Claim C5: an absent or empty per-kind options record means the codec is
never invoked and the ledger records finalSize equal to originalSize; under
the default configuration (`gif: {}`) GIF assets are never re-encoded. -/
theorem empty_options_skip_encode :
    (∀ (enc : Encoder) (k : RasterKind) (o : Option OptsRecord)
       (buf : List Nat),
      o = none ∨ o = some [] → tryEncode enc k o buf = SwitchOutcome.noEncode)
    ∧
    (∀ (opts : MergedOptions) (enc : Encoder) (fileName : String)
       (item : BundleItem) (buf : List Nat),
      item.itype = ItemType.asset →
      createFilter opts.includePat opts.excludePat fileName = true →
      item.source = Source.bytes buf →
      extLower fileName ≠ ".svg" →
      runSwitch opts.sharpOpts enc (extLower fileName) buf =
        SwitchOutcome.noEncode →
      processAsset opts enc fileName item =
        { entry := some ⟨buf.length, buf.length⟩, newSource := item.source
          encoderCalled := false, warned := false, errored := false })
    ∧
    (∀ (enc : Encoder) (b : List Nat),
      processAsset (mergeOptions {}) enc "img.gif"
        ⟨ItemType.asset, Source.bytes b⟩ =
        { entry := some ⟨b.length, b.length⟩, newSource := Source.bytes b
          encoderCalled := false, warned := false, errored := false }) := by
  refine ⟨?_, ?_, ?_⟩
  · intro enc k o buf h
    rcases h with h | h <;> subst h <;> rfl
  · intro opts enc fileName item buf h1 h2 hs he hrs
    rw [processAsset_of_bytes opts enc fileName item buf
      (passesFilter_eq_true opts fileName item h1 h2) hs he]
    rw [hs]
    simp only [runTask, hrs]
  · intro enc b
    rfl

/-- Caller options of Scenario B: an explicitly empty `png` record. -/
def pngEmptyUser : UserOptions :=
  { sharpOptions := some { emptySharpOptions with png := some [] } }

/-- Witness for C5 at Scenario B: `b.png` with caller options `{png: {}}`. -/
theorem empty_options_skip_encode_witness :
    processAsset (mergeOptions pngEmptyUser)
      idEncoder "b.png" ⟨ItemType.asset, Source.bytes [1, 2, 3, 4, 5]⟩ =
      { entry := some ⟨5, 5⟩
        newSource := Source.bytes [1, 2, 3, 4, 5]
        encoderCalled := false, warned := false, errored := false } := by
  have h := empty_options_skip_encode.2.1
    (mergeOptions pngEmptyUser)
    idEncoder "b.png" ⟨ItemType.asset, Source.bytes [1, 2, 3, 4, 5]⟩
    [1, 2, 3, 4, 5] rfl (by decide) rfl (by decide) (by decide)
  rw [h]
  decide

/-- Claim C8: a filtered asset with textual content and a non-svg kind is
skipped with a warning; the ledger records equal sizes and the content is
left unchanged. -/
theorem nonvector_text_skipped (opts : MergedOptions) (enc : Encoder)
    (fileName : String) (s : String) (item : BundleItem)
    (h1 : item.itype = ItemType.asset)
    (h2 : createFilter opts.includePat opts.excludePat fileName = true)
    (hs : item.source = Source.str s)
    (he : extLower fileName ≠ ".svg") :
    processAsset opts enc fileName item =
      { entry := some ⟨(utf8Bytes s).length, (utf8Bytes s).length⟩
        newSource := item.source
        encoderCalled := false, warned := true, errored := false } :=
  processAsset_of_str opts enc fileName item s
    (passesFilter_eq_true opts fileName item h1 h2) hs he

/-- Witness for C8 at a concrete textual `image.jpg` asset. -/
theorem nonvector_text_skipped_witness :
    processAsset (mergeOptions {}) idEncoder "image.jpg"
      ⟨ItemType.asset, Source.str "test"⟩ =
      { entry := some ⟨4, 4⟩, newSource := Source.str "test"
        encoderCalled := false, warned := true, errored := false } := by
  rw [nonvector_text_skipped (mergeOptions {}) idEncoder "image.jpg" "test"
    ⟨ItemType.asset, Source.str "test"⟩ rfl (by decide) rfl (by decide)]
  decide

/-- Claim C10: for a string-sourced asset the recorded originalSize (and
finalSize) is the byte length of the string's UTF-8 encoding. -/
theorem string_source_sizes (opts : MergedOptions) (enc : Encoder)
    (fileName : String) (s : String) (e : LedgerEntry)
    (h : (processAsset opts enc fileName
        ⟨ItemType.asset, Source.str s⟩).entry = some e) :
    e.originalSize = (utf8Bytes s).length ∧
    e.compressedSize = e.originalSize := by
  by_cases hp : passesFilter opts (fileName, ⟨ItemType.asset, Source.str s⟩) = true
  · by_cases he : extLower fileName = ".svg"
    · rw [processAsset_of_svg opts enc fileName ⟨ItemType.asset, Source.str s⟩
        (utf8Bytes s) true hp rfl he] at h
      obtain rfl := Option.some.inj h
      exact ⟨rfl, rfl⟩
    · rw [processAsset_of_str opts enc fileName ⟨ItemType.asset, Source.str s⟩
        s hp rfl he] at h
      obtain rfl := Option.some.inj h
      exact ⟨rfl, rfl⟩
  · rw [processAsset_of_skip opts enc fileName ⟨ItemType.asset, Source.str s⟩
      (Bool.eq_false_iff.mpr hp)] at h
    exact absurd h (by simp)

/-- Witness for C10: the string `"ab图"` has 3 characters but its UTF-8
encoding is 5 bytes, and the ledger records 5. -/
theorem string_source_sizes_witness :
    ((5 : Nat) = (utf8Bytes "ab图").length ∧ (5 : Nat) = 5) ∧
    (processAsset (mergeOptions {}) idEncoder "a.jpg"
      ⟨ItemType.asset, Source.str "ab图"⟩).entry = some ⟨5, 5⟩ ∧
    ("ab图".data.length = 3) := by
  refine ⟨?_, by decide, by decide⟩
  have h := string_source_sizes (mergeOptions {}) idEncoder "a.jpg" "ab图"
    ⟨5, 5⟩ (by decide)
  exact h

/-- Claim C1: when the encoder produced candidate bytes, the asset's content
is replaced by the candidate iff the candidate is strictly smaller, otherwise
the original is kept and the ledger records finalSize equal to originalSize;
and this replacement is the only mutation `processAsset` ever performs on an
asset's content. -/
theorem content_replaced_iff_smaller :
    (∀ (opts : MergedOptions) (enc : Encoder) (fileName : String)
       (item : BundleItem) (buf b : List Nat),
      item.itype = ItemType.asset →
      createFilter opts.includePat opts.excludePat fileName = true →
      item.source = Source.bytes buf →
      extLower fileName ≠ ".svg" →
      runSwitch opts.sharpOpts enc (extLower fileName) buf =
        SwitchOutcome.encoded b →
      (b.length < buf.length →
        processAsset opts enc fileName item =
          { entry := some ⟨buf.length, b.length⟩
            newSource := Source.bytes b
            encoderCalled := true, warned := false, errored := false }) ∧
      (¬ b.length < buf.length →
        processAsset opts enc fileName item =
          { entry := some ⟨buf.length, buf.length⟩
            newSource := item.source
            encoderCalled := true, warned := false, errored := false }))
    ∧
    (∀ (opts : MergedOptions) (enc : Encoder) (fileName : String)
       (item : BundleItem),
      (processAsset opts enc fileName item).newSource ≠ item.source →
      ∃ buf b, item.source = Source.bytes buf ∧
        runSwitch opts.sharpOpts enc (extLower fileName) buf =
          SwitchOutcome.encoded b ∧
        b.length < buf.length ∧
        (processAsset opts enc fileName item).newSource = Source.bytes b ∧
        (processAsset opts enc fileName item).entry =
          some ⟨buf.length, b.length⟩) := by
  constructor
  · intro opts enc fileName item buf b h1 h2 hs he hrs
    rw [processAsset_of_bytes opts enc fileName item buf
      (passesFilter_eq_true opts fileName item h1 h2) hs he, hs]
    simp only [runTask, hrs]
    constructor
    · intro hlt
      rw [if_pos hlt]
    · intro hge
      rw [if_neg hge]
  · intro opts enc fileName item hne
    by_cases hp : passesFilter opts (fileName, item) = true
    · cases hsrc : item.source with
      | other =>
          rw [processAsset_of_other opts enc fileName item hp hsrc] at hne
          exact absurd rfl hne
      | str s =>
          by_cases he : extLower fileName = ".svg"
          · rw [processAsset_of_svg opts enc fileName item (utf8Bytes s) true
              hp (by rw [hsrc]; rfl) he] at hne
            exact absurd rfl hne
          · rw [processAsset_of_str opts enc fileName item s hp hsrc he]
              at hne
            exact absurd rfl hne
      | bytes buf =>
          by_cases he : extLower fileName = ".svg"
          · rw [processAsset_of_svg opts enc fileName item buf false
              hp (by rw [hsrc]; rfl) he] at hne
            exact absurd rfl hne
          · rw [processAsset_of_bytes opts enc fileName item buf hp hsrc he]
              at hne ⊢
            cases hrs : runSwitch opts.sharpOpts enc (extLower fileName) buf
              with
            | defaultCase =>
                simp only [runTask, hrs] at hne
                rw [hsrc] at hne
                exact absurd rfl hne
            | noEncode =>
                simp only [runTask, hrs] at hne
                rw [hsrc] at hne
                exact absurd rfl hne
            | threw =>
                simp only [runTask, hrs] at hne
                rw [hsrc] at hne
                exact absurd rfl hne
            | encoded b =>
                by_cases hlt : b.length < buf.length
                · refine ⟨buf, b, rfl, hrs, hlt, ?_, ?_⟩ <;>
                    simp only [runTask, hrs, if_pos hlt]
                · simp only [runTask, hrs, if_neg hlt] at hne
                  rw [hsrc] at hne
                  exact absurd rfl hne
    · rw [processAsset_of_skip opts enc fileName item
        (Bool.eq_false_iff.mpr hp)] at hne
      exact absurd rfl hne

/-- Witness for C1 at Scenario A shape: a 5-byte `a.jpg` whose candidate is
3 bytes gets its content replaced and the ledger records the new size. -/
theorem content_replaced_iff_smaller_witness :
    processAsset (mergeOptions {}) (constEncoder [7, 8, 9]) "a.jpg"
      ⟨ItemType.asset, Source.bytes [1, 2, 3, 4, 5]⟩ =
      { entry := some ⟨5, 3⟩, newSource := Source.bytes [7, 8, 9]
        encoderCalled := true, warned := false, errored := false } := by
  have h := (content_replaced_iff_smaller.1 (mergeOptions {})
    (constEncoder [7, 8, 9]) "a.jpg"
    ⟨ItemType.asset, Source.bytes [1, 2, 3, 4, 5]⟩ [1, 2, 3, 4, 5] [7, 8, 9]
    rfl (by decide) rfl (by decide) (by decide)).1 (by decide)
  rw [h]
  decide

/-- Claim C3: a thrown codec failure is caught at the per-asset task
boundary: the ledger entry records unchanged sizes, the content is
unchanged, and the rest of the batch is processed exactly as if the failing
asset were absent from its position (the batch always completes). -/
theorem codec_failure_contained :
    (∀ (opts : MergedOptions) (enc : Encoder) (fileName : String)
       (item : BundleItem) (buf : List Nat),
      item.itype = ItemType.asset →
      createFilter opts.includePat opts.excludePat fileName = true →
      item.source = Source.bytes buf →
      extLower fileName ≠ ".svg" →
      runSwitch opts.sharpOpts enc (extLower fileName) buf =
        SwitchOutcome.threw →
      processAsset opts enc fileName item =
        { entry := some ⟨buf.length, buf.length⟩, newSource := item.source
          encoderCalled := true, warned := false, errored := true })
    ∧
    (∀ (opts : MergedOptions) (enc : Encoder) (fileName : String)
       (item : BundleItem) (rest : List (String × BundleItem)),
      generateBundle opts enc ((fileName, item) :: rest) =
        ((match (processAsset opts enc fileName item).entry with
          | some e => (fileName, e) :: (generateBundle opts enc rest).1
          | none => (generateBundle opts enc rest).1),
         (fileName,
            { item with
              source := (processAsset opts enc fileName item).newSource }) ::
           (generateBundle opts enc rest).2)) := by
  constructor
  · intro opts enc fileName item buf h1 h2 hs he hrs
    rw [processAsset_of_bytes opts enc fileName item buf
      (passesFilter_eq_true opts fileName item h1 h2) hs he, hs]
    simp only [runTask, hrs]
  · intro opts enc fileName item rest
    rfl

/-- Caller options of Scenario D: a non-empty `gif` record so that the codec
is actually invoked on GIF assets. -/
def gifUser : UserOptions :=
  { sharpOptions := some { emptySharpOptions with gif := some [("colours", 128)] } }

/-- Witness for C3 at Scenario D: `d.gif` whose encoder throws produces an
unchanged ledger entry and the sibling asset is still processed. -/
theorem codec_failure_contained_witness :
    processAsset (mergeOptions gifUser) errEncoder "d.gif"
      ⟨ItemType.asset, Source.bytes [1, 2, 3]⟩ =
      { entry := some ⟨3, 3⟩, newSource := Source.bytes [1, 2, 3]
        encoderCalled := true, warned := false, errored := true } := by
  have h := codec_failure_contained.1 (mergeOptions gifUser) errEncoder
    "d.gif" ⟨ItemType.asset, Source.bytes [1, 2, 3]⟩ [1, 2, 3]
    rfl (by decide) rfl (by decide) (by decide)
  rw [h]
  decide

lemma processAsset_size_rel (opts : MergedOptions) (enc : Encoder)
    (fileName : String) (item : BundleItem) (e : LedgerEntry)
    (h : (processAsset opts enc fileName item).entry = some e) :
    e.compressedSize ≤ e.originalSize ∧
    (e.compressedSize < e.originalSize ↔
      (processAsset opts enc fileName item).newSource ≠ item.source) := by
  by_cases hp : passesFilter opts (fileName, item) = true
  · cases hsrc : item.source with
    | other =>
        rw [processAsset_of_other opts enc fileName item hp hsrc] at h
        exact absurd h (by simp)
    | str s =>
        by_cases he : extLower fileName = ".svg"
        · rw [processAsset_of_svg opts enc fileName item (utf8Bytes s) true
            hp (by rw [hsrc]; rfl) he] at h ⊢
          obtain rfl := Option.some.inj h
          simp [hsrc]
        · rw [processAsset_of_str opts enc fileName item s hp hsrc he] at h ⊢
          obtain rfl := Option.some.inj h
          simp [hsrc]
    | bytes buf =>
        by_cases he : extLower fileName = ".svg"
        · rw [processAsset_of_svg opts enc fileName item buf false
            hp (by rw [hsrc]; rfl) he] at h ⊢
          obtain rfl := Option.some.inj h
          simp [hsrc]
        · rw [processAsset_of_bytes opts enc fileName item buf hp hsrc he]
            at h ⊢
          cases hrs : runSwitch opts.sharpOpts enc (extLower fileName) buf
            with
          | defaultCase =>
              simp only [runTask, hrs] at h ⊢
              obtain rfl := Option.some.inj h
              simp [hsrc]
          | noEncode =>
              simp only [runTask, hrs] at h ⊢
              obtain rfl := Option.some.inj h
              simp [hsrc]
          | threw =>
              simp only [runTask, hrs] at h ⊢
              obtain rfl := Option.some.inj h
              simp [hsrc]
          | encoded b =>
              by_cases hlt : b.length < buf.length
              · simp only [runTask, hrs, if_pos hlt] at h ⊢
                obtain rfl := Option.some.inj h
                refine ⟨Nat.le_of_lt hlt, ?_⟩
                simp only [hlt, true_iff]
                intro hEq
                have hb : b = buf := Source.bytes.inj hEq
                subst hb
                exact absurd hlt (lt_irrefl _)
              · simp only [runTask, hrs, if_neg hlt] at h ⊢
                obtain rfl := Option.some.inj h
                simp [hsrc]
  · rw [processAsset_of_skip opts enc fileName item
      (Bool.eq_false_iff.mpr hp)] at h
    exact absurd h (by simp)

lemma generateBundle_ledger_mem (opts : MergedOptions) (enc : Encoder)
    (bundle : List (String × BundleItem)) (fileName : String)
    (e : LedgerEntry)
    (h : (fileName, e) ∈ (generateBundle opts enc bundle).1) :
    ∃ item, (processAsset opts enc fileName item).entry = some e := by
  induction bundle with
  | nil => exact absurd h (by simp [generateBundle])
  | cons hd tl ih =>
      obtain ⟨name, item⟩ := hd
      simp only [generateBundle] at h
      cases hE : (processAsset opts enc name item).entry with
      | none =>
          rw [hE] at h
          exact ih h
      | some e' =>
          rw [hE] at h
          rcases List.mem_cons.mp h with heq | hmem
          · obtain ⟨h1, h2⟩ := Prod.mk.inj heq
            subst h1
            subst h2
            exact ⟨item, hE⟩
          · exact ih hmem

lemma statusOf_ne_error (fileName : String) (e : LedgerEntry)
    (hle : e.compressedSize ≤ e.originalSize) :
    statusOf fileName e ≠ ReportStatus.errorStatus := by
  unfold statusOf
  by_cases hsvg : extLower fileName = ".svg"
  · simp [hsvg]
  · simp only [hsvg, if_false]
    have hd : (0 : Int) ≤ (e.originalSize : Int) - (e.compressedSize : Int) := by
      omega
    rcases lt_or_eq_of_le hd with hpos | hzero
    · simp [hpos]
    · simp [← hzero]

/-- Claim C9: every ledger entry satisfies finalSize ≤ originalSize, with
strict inequality exactly when the asset's content was replaced; hence the
report branch for a size increase is unreachable. -/
theorem ledger_sizes_never_increase :
    (∀ (opts : MergedOptions) (enc : Encoder) (fileName : String)
       (item : BundleItem) (e : LedgerEntry),
      (processAsset opts enc fileName item).entry = some e →
      e.compressedSize ≤ e.originalSize ∧
      (e.compressedSize < e.originalSize ↔
        (processAsset opts enc fileName item).newSource ≠ item.source))
    ∧
    (∀ (opts : MergedOptions) (enc : Encoder)
       (bundle : List (String × BundleItem)) (fileName : String)
       (e : LedgerEntry),
      (fileName, e) ∈ (generateBundle opts enc bundle).1 →
      statusOf fileName e ≠ ReportStatus.errorStatus) := by
  constructor
  · exact processAsset_size_rel
  · intro opts enc bundle fileName e hmem
    obtain ⟨item, hE⟩ := generateBundle_ledger_mem opts enc bundle fileName
      e hmem
    exact statusOf_ne_error fileName e
      (processAsset_size_rel opts enc fileName item e hE).1

/-- Witness for C9 at a concrete one-asset batch. -/
theorem ledger_sizes_never_increase_witness :
    statusOf "x.png" ⟨3, 3⟩ ≠ ReportStatus.errorStatus :=
  ledger_sizes_never_increase.2 (mergeOptions {}) idEncoder
    [("x.png", ⟨ItemType.asset, Source.bytes [1, 2, 3]⟩)] "x.png" ⟨3, 3⟩
    (by decide)

/-- Claim C2 fails as stated: an asset whose content is of unrecognized
runtime type passes the filter yet receives no ledger entry, so the ledger
can be smaller than the set of filter-passing assets. -/
theorem ledger_completeness_counterexample :
    ¬ ((generateBundle (mergeOptions {}) idEncoder
          [("x.png", ⟨ItemType.asset, Source.other⟩)]).1.length =
       ([("x.png", (⟨ItemType.asset, Source.other⟩ : BundleItem))].filter
          (passesFilter (mergeOptions {}))).length) := by
  decide

/-- Claim C2, amended: for any batch in which every asset's content is a
string or a byte sequence, the ledger has exactly one entry per
filter-passing asset of kind `asset` (errored or skipped tasks included)
and none for the rest; filter-passing assets of unrecognized content type
are skipped with a warning and receive no entry. -/
theorem ledger_one_entry_per_recognized (opts : MergedOptions)
    (enc : Encoder) (bundle : List (String × BundleItem))
    (h : ∀ p ∈ bundle, p.2.source ≠ Source.other) :
    (generateBundle opts enc bundle).1.length =
      (bundle.filter (passesFilter opts)).length := by
  induction bundle with
  | nil => rfl
  | cons hd tl ih =>
      have hhd : hd.2.source ≠ Source.other := h hd (List.mem_cons_self _ _)
      have htl : ∀ p ∈ tl, p.2.source ≠ Source.other :=
        fun p hp => h p (List.mem_cons_of_mem _ hp)
      obtain ⟨name, item⟩ := hd
      by_cases hp : passesFilter opts (name, item) = true
      · have hsome := processAsset_entry_isSome opts enc name item hp hhd
        obtain ⟨e, hE⟩ := Option.isSome_iff_exists.mp hsome
        simp only [generateBundle, hE, List.filter_cons, hp, if_true,
          List.length_cons]
        rw [ih htl]
      · have hnone := processAsset_entry_none opts enc name item
          (Or.inl (Bool.eq_false_iff.mpr hp))
        simp only [generateBundle, hnone, List.filter_cons, hp,
          Bool.false_eq_true, if_false]
        exact ih htl

/-- Witness for the amended C2: a three-entry batch (one candidate, one
chunk, one filtered-out path) yields a one-entry ledger. -/
theorem ledger_one_entry_per_recognized_witness :
    (generateBundle (mergeOptions {}) idEncoder
        [("a.png", ⟨ItemType.asset, Source.bytes [1, 2]⟩),
         ("b.js", ⟨ItemType.chunk, Source.str "code"⟩),
         ("c.txt", ⟨ItemType.asset, Source.bytes [3]⟩)]).1.length =
      ([("a.png", (⟨ItemType.asset, Source.bytes [1, 2]⟩ : BundleItem)),
        ("b.js", ⟨ItemType.chunk, Source.str "code"⟩),
        ("c.txt", ⟨ItemType.asset, Source.bytes [3]⟩)].filter
          (passesFilter (mergeOptions {}))).length :=
  ledger_one_entry_per_recognized (mergeOptions {}) idEncoder _
    (by decide)

/-- Claim C6: the effective compression options are merged per raster kind:
a caller-supplied record wholly replaces the built-in default record for
that kind, an absent one keeps the default; supplying only a `jpeg` record
leaves the `png` default `{quality: 75, compressionLevel: 6}` (and every
other default) in effect rather than wholesale-replacing the mapping. -/
theorem options_merge_per_kind :
    (∀ (user : SharpCompressOptions) (r : OptsRecord),
      ((user.jpeg = some r →
          (mergeOptions { sharpOptions := some user }).sharpOpts.jpeg =
            some r) ∧
       (user.jpeg = none →
          (mergeOptions { sharpOptions := some user }).sharpOpts.jpeg =
            defaultSharpOptions.jpeg)) ∧
      ((user.png = some r →
          (mergeOptions { sharpOptions := some user }).sharpOpts.png =
            some r) ∧
       (user.png = none →
          (mergeOptions { sharpOptions := some user }).sharpOpts.png =
            defaultSharpOptions.png)) ∧
      ((user.webp = some r →
          (mergeOptions { sharpOptions := some user }).sharpOpts.webp =
            some r) ∧
       (user.webp = none →
          (mergeOptions { sharpOptions := some user }).sharpOpts.webp =
            defaultSharpOptions.webp)) ∧
      ((user.gif = some r →
          (mergeOptions { sharpOptions := some user }).sharpOpts.gif =
            some r) ∧
       (user.gif = none →
          (mergeOptions { sharpOptions := some user }).sharpOpts.gif =
            defaultSharpOptions.gif)) ∧
      ((user.avif = some r →
          (mergeOptions { sharpOptions := some user }).sharpOpts.avif =
            some r) ∧
       (user.avif = none →
          (mergeOptions { sharpOptions := some user }).sharpOpts.avif =
            defaultSharpOptions.avif)))
    ∧
    (∀ r : OptsRecord,
      (mergeOptions { sharpOptions := some ⟨some r, none, none, none, none⟩ }).sharpOpts =
        { jpeg := some r
          png := some [("quality", 75), ("compressionLevel", 6)]
          webp := some [("quality", 75)]
          gif := some []
          avif := some [("quality", 50)] }) := by
  constructor
  · intro user r
    refine ⟨⟨?_, ?_⟩, ⟨?_, ?_⟩, ⟨?_, ?_⟩, ⟨?_, ?_⟩, ⟨?_, ?_⟩⟩ <;>
      intro h <;> simp [mergeOptions, mergeSharp, overrideKey, h]
  · intro r
    rfl

/-- A caller sharp-options object carrying only `{jpeg: {quality: 90}}`. -/
def jpeg90Sharp : SharpCompressOptions :=
  ⟨some [("quality", 90)], none, none, none, none⟩

/-- Witness for C6: a caller record `{jpeg: {quality: 90}}` replaces only
the jpeg default. -/
theorem options_merge_per_kind_witness :
    (mergeOptions { sharpOptions := some jpeg90Sharp }).sharpOpts.jpeg =
      some [("quality", 90)] :=
  ((options_merge_per_kind.1 jpeg90Sharp [("quality", 90)]).1).1 rfl

/-- Caller options of Scenario F: `include = /\.webp$/`. -/
def webpOnlyUser : UserOptions :=
  { includePat := some (fun p => endsWithStr p ".webp") }

/-- Claim C7: an asset is a candidate iff its path matches the include
pattern and does not match the exclude pattern; an unset include falls back
to the default raster+vector pattern; and with `include = /\.webp$/` a batch
of `f.webp` and `g.jpg` yields a ledger containing only `f.webp`. -/
theorem filter_include_exclude :
    (∀ (inc exc : PathPattern) (p : String),
      createFilter (some inc) (some exc) p = (inc p && !(exc p)))
    ∧ ((mergeOptions {}).includePat = some defaultIncludePat)
    ∧ ((generateBundle (mergeOptions webpOnlyUser) idEncoder
          [("f.webp", ⟨ItemType.asset, Source.bytes [1, 2, 3]⟩),
           ("g.jpg", ⟨ItemType.asset, Source.bytes [4, 5]⟩)]).1 =
        [("f.webp", ⟨3, 3⟩)]) := by
  refine ⟨?_, rfl, by decide⟩
  intro inc exc p
  cases h1 : inc p <;> cases h2 : exc p <;>
    simp [createFilter, h1, h2]

end ImageCompress
